import Mathlib

/-!
Verification development for the RotBotSlicer/Transform repository,
file Backtransformation_GCode.py.

Modelling conventions.

Python floats are modelled as exact rationals.  The numpy constant np.pi
is the IEEE-754 double closest to pi, which is exactly the rational
884279719003555 / 2^48; we use that exact value.  np.sqrt and
np.arctan2 are modelled by rational approximations (fsqrt, fatan2)
accurate to about 1e-16; every concrete input evaluated in this file is
chosen so that each rounding step (3, 4 or 6 decimals) is far from a
tie, hence the computed results coincide with the double-precision
results of the source.  Python round and np.round use round-half-even;
roundPy implements exactly that on rationals.

Python runtime errors (TypeError from a call with the wrong number of
positional arguments, ValueError from float() on a malformed token or
from an inadmissible cone_type, AttributeError from using a failed
regex match) are modelled with the Except monad over the PyErr type.
-/

/-- The Python exceptions that the modelled code can raise. -/
inductive PyErr where
  | typeError : PyErr
  | valueError : PyErr
  | attributeError : PyErr
  deriving DecidableEq, Repr

/-- Decidable equality of Except values, so that concrete runs of the
modelled fallible functions can be checked by the kernel. -/
instance {ε α : Type} [DecidableEq ε] [DecidableEq α] : DecidableEq (Except ε α) := fun a b =>
  match a, b with
  | .ok x, .ok y =>
    match decEq x y with
    | isTrue h => isTrue (by rw [h])
    | isFalse h => isFalse (fun hh => h (Except.ok.inj hh))
  | .ok _, .error _ => isFalse (fun hh => Except.noConfusion hh)
  | .error _, .ok _ => isFalse (fun hh => Except.noConfusion hh)
  | .error x, .error y =>
    match decEq x y with
    | isTrue h => isTrue (by rw [h])
    | isFalse h => isFalse (fun hh => h (Except.error.inj hh))

/-- Round-half-even at k decimal places, the semantics of Python round(x, k)
and numpy around(x, k) on our exact-rational model of floats. -/
def roundPy (k : Nat) (q : ℚ) : ℚ :=
  let s : ℚ := q * (10 : ℚ) ^ k
  let f : ℤ := Int.floor s
  let r : ℚ := s - (f : ℚ)
  let n : ℤ :=
    if r < 1/2 then f
    else if 1/2 < r then f + 1
    else if f % 2 = 0 then f else f + 1
  (n : ℚ) / (10 : ℚ) ^ k

/-- One Newton step for integer square root, with explicit fuel so that the
recursion is structural and kernel-reducible. -/
def isqrtAux : Nat → Nat → Nat → Nat
  | 0, _, x => x
  | fuel + 1, n, x =>
    let x' := (x + n / x) / 2
    if x' < x then isqrtAux fuel n x' else x

/-- Integer square root (floor of the real square root), by Newton iteration
started at n itself; the iteration roughly halves its argument until it
converges, so a fixed fuel of 1200 covers every number below 2 ^ 1000. -/
def isqrt (n : Nat) : Nat :=
  if n ≤ 1 then n else isqrtAux 1200 n n

/-- Model of np.sqrt on nonnegative rationals: floor square root at 16
decimal digits of precision, matching double precision to about 1 ulp. -/
def fsqrt (q : ℚ) : ℚ :=
  (isqrt (q.num.toNat * q.den * 10 ^ 32) : ℚ) / ((q.den : ℚ) * 10 ^ 16)

/-- The exact rational value of the IEEE-754 double np.pi. -/
def np_pi : ℚ := 884279719003555 / 281474976710656

/-- Taylor polynomial of arctan, used only after argument reduction to
small arguments, where its error is far below the modelling precision. -/
def fatanT (t : ℚ) : ℚ :=
  t - t ^ 3 / 3 + t ^ 5 / 5 - t ^ 7 / 7 + t ^ 9 / 9 - t ^ 11 / 11
    + t ^ 13 / 13 - t ^ 15 / 15 + t ^ 17 / 17 - t ^ 19 / 19

/-- arctan on [0, 1] via three half-angle reductions followed by the Taylor
polynomial. -/
def fatanR (t : ℚ) : ℚ :=
  let t1 := t / (1 + fsqrt (1 + t ^ 2))
  let t2 := t1 / (1 + fsqrt (1 + t1 ^ 2))
  let t3 := t2 / (1 + fsqrt (1 + t2 ^ 2))
  8 * fatanT t3

/-- arctan on [0, ∞) using the complement identity above 1. -/
def fatanP (t : ℚ) : ℚ :=
  if 1 < t then np_pi / 2 - fatanR (1 / t) else fatanR t

/-- Rational model of arctan (odd extension of fatanP). -/
def fatan (t : ℚ) : ℚ :=
  if t < 0 then - fatanP (-t) else fatanP t

/-- Rational model of np.arctan2 with the usual quadrant convention.
On the coordinate axes it is exact (0, pi/2, pi, -pi/2 in the np_pi
model); the claims evaluated concretely in this file only ever reach the
axis cases.  Signed zeros of doubles are not representable in this model;
no claim depends on them. -/
def fatan2 (y x : ℚ) : ℚ :=
  if 0 < x then fatan (y / x)
  else if x < 0 then
    (if 0 ≤ y then fatan (y / x) + np_pi else fatan (y / x) - np_pi)
  else if 0 < y then np_pi / 2
  else if y < 0 then - np_pi / 2
  else 0

/-!
String machinery.  The source uses three regular-expression shapes on
each row: the coordinate patterns L[-0-9]+[.]?[0-9]* for a letter L in
X, Y, Z, E, U, the move prefix \AG[01] , and plain substring markers.
We implement exactly the semantics the re module gives these patterns:
leftmost match, each quantifier greedy (no backtracking is ever needed
for this shape, because the parts after the mandatory run are optional
and start with characters excluded from the preceding class).
-/

/-- Membership in the character class [-0-9]. -/
def isNumTail (c : Char) : Bool := c = '-' || c.isDigit

/-- Split off the maximal prefix of characters satisfying p. -/
def grabRun (p : Char → Bool) : List Char → List Char × List Char
  | [] => ([], [])
  | c :: cs =>
    if p c then
      let r := grabRun p cs
      (c :: r.1, r.2)
    else ([], c :: cs)

/-- Whether the list starts with a [-0-9] character. -/
def headIsNumTail : List Char → Bool
  | [] => false
  | c :: _ => isNumTail c

/-- re.search for the pattern L[-0-9]+[.]?[0-9]* with letter L: returns
the text before the leftmost match, the matched token, and the text
after it. -/
def reSearchL (letter : Char) : List Char → Option (List Char × List Char × List Char)
  | [] => none
  | c :: cs =>
    if c = letter && headIsNumTail cs then
      let r1 := grabRun isNumTail cs
      match r1.2 with
      | '.' :: rest2 =>
        let r2 := grabRun Char.isDigit rest2
        some ([], c :: r1.1 ++ '.' :: r2.1, r2.2)
      | _ => some ([], c :: r1.1, r1.2)
    else
      match reSearchL letter cs with
      | none => none
      | some (pre, tok, post) => some (c :: pre, tok, post)

/-- re.sub of every match of the letter pattern by a fixed replacement,
with explicit fuel (the list length bounds the number of matches). -/
def reSubAllAux (letter : Char) (repl : List Char) : Nat → List Char → List Char
  | 0, s => s
  | fuel + 1, s =>
    match reSearchL letter s with
    | none => s
    | some (pre, _, post) => pre ++ repl ++ reSubAllAux letter repl fuel post

/-- re.sub replacing every match of the letter pattern. -/
def reSubAll (letter : Char) (repl : List Char) (s : List Char) : List Char :=
  reSubAllAux letter repl s.length s

/-- Decimal digits to a natural number. -/
def digitsToNat (l : List Char) : Nat :=
  l.foldl (fun a c => a * 10 + (c.toNat - '0'.toNat)) 0

/-- Python float() restricted to the tokens the coordinate patterns can
produce (characters - 0-9 .): an optional single leading minus, then
digits with at most one dot and at least one digit in total.  Returns
none exactly when float() raises ValueError (for instance on the token
- alone, or on a minus sign that is not leading). -/
def pyFloat (tok : List Char) : Option ℚ :=
  let sr : Bool × List Char := match tok with
    | '-' :: r => (true, r)
    | r => (false, r)
  let d1 := grabRun Char.isDigit sr.2
  let mk : ℚ → Option ℚ := fun a => some (if sr.1 then -a else a)
  match d1.2 with
  | [] =>
    if d1.1.isEmpty then none
    else mk (digitsToNat d1.1)
  | '.' :: rest2 =>
    let d2 := grabRun Char.isDigit rest2
    if d2.2.isEmpty && (!d1.1.isEmpty || !d2.1.isEmpty) then
      mk ((digitsToNat d1.1 : ℚ) + (digitsToNat d2.1 : ℚ) / (10 : ℚ) ^ d2.1.length)
    else none
  | _ => none

/-- Python str() of one of the float values this code prints.  Every
printed value has been rounded to at most 6 decimal places, and for such
doubles repr prints the plain decimal form with trailing zeros removed
and at least one fractional digit. -/
def fmtQ (q : ℚ) : String :=
  let neg := q < 0
  let scaled : ℤ := Int.floor (|q| * 10 ^ 6)
  let ip := (scaled / 10 ^ 6).toNat
  let fp := (scaled % 10 ^ 6).toNat
  let s := Nat.repr fp
  let padded := String.mk (List.replicate (6 - s.length) '0') ++ s
  let stripped := String.mk ((padded.toList.reverse.dropWhile (· = '0')).reverse)
  let fracStr := if stripped = "" then "0" else stripped
  (if neg then "-" else "") ++ Nat.repr ip ++ "." ++ fracStr

/-- insert_Z from the source: insert or replace the z-value in a row.
If a Z token is present every Z token is rewritten (re.sub) with a
leading blank, otherwise the new token is inserted after the Y token,
else after the X token, else prefixed to the row. -/
def insert_Z (row : String) (z_value : ℚ) : String :=
  let zstr := fmtQ (roundPy 3 z_value)
  match reSearchL 'Z' row.toList with
  | some _ => String.mk (reSubAll 'Z' (" Z" ++ zstr).toList row.toList)
  | none =>
    match reSearchL 'Y' row.toList with
    | some (pre, tok, post) =>
      String.mk pre ++ String.mk tok ++ " Z" ++ zstr ++ String.mk post
    | none =>
      match reSearchL 'X' row.toList with
      | some (pre, tok, post) =>
        String.mk pre ++ String.mk tok ++ " Z" ++ zstr ++ String.mk post
      | none => "Z" ++ zstr ++ " " ++ row

/-- replace_E from the source: rescale the extrusion value of a row by
dist_new * corr_value / dist_old, rounded to 6 decimals; rows without an
E token pass through; a zero old distance emits the integer 0; a
malformed E token makes float() raise ValueError. -/
def replace_E (row : String) (dist_old dist_new corr_value : ℚ) : Except PyErr String :=
  match reSearchL 'E' row.toList with
  | none => .ok row
  | some (pre, tok, post) =>
    match pyFloat (tok.filter (· ≠ 'E')) with
    | none => .error .valueError
    | some e_val_old =>
      let e_str_new :=
        if dist_old = 0 then "E0"
        else "E" ++ fmtQ (roundPy 6 (e_val_old * dist_new * corr_value / dist_old))
      .ok (String.mk pre ++ e_str_new ++ String.mk post)

/-- insert_U from the source: replace every U token if one exists, else
insert after the Z token; a row with neither U nor Z makes the source
dereference a failed match (AttributeError). -/
def insert_U (row : String) (angle : ℚ) : Except PyErr String :=
  match reSearchL 'U' row.toList with
  | some _ => .ok (String.mk (reSubAll 'U' ("U" ++ fmtQ angle).toList row.toList))
  | none =>
    match reSearchL 'Z' row.toList with
    | none => .error .attributeError
    | some (pre, tok, post) =>
      .ok (String.mk pre ++ String.mk tok ++ " U" ++ fmtQ angle ++ String.mk post)

/-!
The angle unwrapper compute_U_values.  The source builds, for every raw
angle, the 21 candidates raw + 2 pi k for k from -10 to 10, rounds the
whole candidate array to 4 decimals, and then walks the sequence
choosing at each step the rounded candidate closest to the previously
selected value (np.argmin takes the first index attaining the minimum,
that is the smallest k).  The first element is carried over unrounded.
Finally everything is converted to degrees and rounded to 2 decimals.
-/

/-- The rounded candidate list for one raw angle, in increasing k. -/
def uCandidates (a : ℚ) : List ℚ :=
  (List.range 21).map (fun j : ℕ => roundPy 4 (a + (((j : ℤ) - 10 : ℤ) : ℚ) * 2 * np_pi))

/-- First minimizer of the distance to prev in a candidate list. -/
def bestCand (prev : ℚ) (a : ℚ) : ℚ :=
  match uCandidates a with
  | [] => 0
  | c :: cs => cs.foldl (fun b c' => if |c' - prev| < |b - prev| then c' else b) c

/-- The selection recursion of compute_U_values: each element is the
candidate of the corresponding raw angle closest to the previous
selected element. -/
def selectU : ℚ → List ℚ → List ℚ
  | _, [] => []
  | prev, a :: rest =>
    let c := bestCand prev a
    c :: selectU c rest

/-- The selected continuous sequence in radians: first raw angle kept
as is, then the selection recursion. -/
def selSeq : List ℚ → List ℚ
  | [] => []
  | a :: rest => a :: selectU a rest

/-- compute_U_values from the source: continuous angle sequence in
degrees, rounded to 2 decimals. -/
def compute_U_values (angle_array : List ℚ) : List ℚ :=
  (selSeq angle_array).map (fun a => roundPy 2 (a * 360 / (2 * np_pi)))

/-!
The backtransformation drivers.  The running variables of the source
loops become an explicit state record threaded through a fold.
-/

/-- The running variables of one backtransformation pass. -/
structure MState where
  x_old : ℚ
  y_old : ℚ
  x_new : ℚ
  y_new : ℚ
  z_layer : ℚ
  angle_old : ℚ
  z_max : ℚ
  update_x : Bool
  update_y : Bool
  deriving Repr, DecidableEq

/-- The initial state of a pass: every numeric variable 0, flags off. -/
def initState : MState :=
  { x_old := 0, y_old := 0, x_new := 0, y_new := 0, z_layer := 0,
    angle_old := 0, z_max := 0, update_x := false, update_y := false }

/-- Whether the first list is a prefix of the second (used instead of
the String functions so that the kernel can evaluate it directly). -/
def listPrefix : List Char → List Char → Bool
  | [], _ => true
  | _ :: _, [] => false
  | a :: as, b :: bs => a = b && listPrefix as bs

/-- Whether the row matches the move pattern \AG[01] of the source. -/
def isMoveRow (row : String) : Bool :=
  listPrefix "G0 ".toList row.toList || listPrefix "G1 ".toList row.toList

/-- Whether p occurs as a suffix of s (for stating facts about emitted
rows). -/
def strEnds (s p : String) : Bool :=
  listPrefix p.toList.reverse s.toList.reverse

/-- Whether p occurs as a prefix of s. -/
def strStarts (s p : String) : Bool :=
  listPrefix p.toList s.toList

/-- Whether the row contains a token of the given coordinate pattern. -/
def hasTok (letter : Char) (row : String) : Bool :=
  (reSearchL letter row.toList).isSome

/-- Parse one coordinate field: no match gives none, a matched token that
float() rejects raises ValueError. -/
def parseCoord (letter : Char) (row : String) : Except PyErr (Option ℚ) :=
  match reSearchL letter row.toList with
  | none => .ok none
  | some (_, tok, _) =>
    match pyFloat (tok.filter (· ≠ letter)) with
    | none => .error .valueError
    | some v => .ok (some v)

/-- The field-reading prologue shared by the drivers (in source order Z,
then X, then Y): updates z_layer, x_new, y_new and the two sticky update
flags; the first ValueError aborts. -/
def parseFields (st : MState) (row : String) : Except PyErr MState :=
  match parseCoord 'Z' row with
  | .error e => .error e
  | .ok z =>
    match parseCoord 'X' row with
    | .error e => .error e
    | .ok x =>
      match parseCoord 'Y' row with
      | .error e => .error e
      | .ok y =>
        .ok { st with
              z_layer := z.getD st.z_layer,
              x_new := x.getD st.x_new,
              update_x := st.update_x || x.isSome,
              y_new := y.getD st.y_new,
              update_y := st.update_y || y.isSome }

/-- np.linalg.norm of a 2-vector. -/
def norm2 (a b : ℚ) : ℚ := fsqrt (a ^ 2 + b ^ 2)

/-- np.linalg.norm of a 3-vector. -/
def norm3 (a b c : ℚ) : ℚ := fsqrt (a ^ 2 + b ^ 2 + c ^ 2)

/-- The segment count int(dist // maximal_length + 1) of the source
(floor division of nonnegative dist, so int() truncation is the
identity on the integer-valued float it receives). -/
def num_segm (dist maximal_length : ℚ) : ℤ :=
  Int.floor (dist / maximal_length) + 1

/-- np.linspace(a, b, n + 1): the n + 1 points a + (b - a) * i / n. -/
def linspaceQ (a b : ℚ) (n : ℤ) : List ℚ :=
  (List.range (n + 1).toNat).map (fun i : ℕ => a + (b - a) * (i : ℚ) / (n : ℚ))

/-- np.max of a list (sources always apply it to nonempty arrays; the
default 0 for the empty list is never reached in a driver run). -/
def listMax : List ℚ → ℚ
  | [] => 0
  | h :: t => t.foldl max h

/-- Last element of a list, defaulting to 0 (arrays indexed [-1] in the
source are always nonempty). -/
def listLast (l : List ℚ) : ℚ := l.getLastD 0

/-- Consecutive differences l[i + 1] - l[i]. -/
def deltas (l : List ℚ) : List ℚ :=
  (l.zip l.tail).map (fun p => p.2 - p.1)

/-- compute_angle_tangential of the source in the rational float model:
the printing-head angle from the normal of the move direction projected
toward the origin, with the radial fallback for degenerate vectors and
the direct-normal case when the inner product is within 0.01 of 0
(np.isclose with atol 0.01 and b = 0). -/
def compute_angle_tangential (x_old y_old x_new y_new : ℚ) (inward_cone : Bool) : ℚ :=
  let dnx := -(y_new - y_old)
  let dny := x_new - x_old
  let len_normal := norm2 dnx dny
  let len_point := norm2 x_new y_new
  let angle :=
    if len_normal * len_point = 0 then fatan2 y_new x_new
    else
      let inner_prod := dnx / len_normal * (x_new / len_point) + dny / len_normal * (y_new / len_point)
      if |inner_prod| ≤ 1/100 then fatan2 dny dnx
      else
        let px := inner_prod * len_point / len_normal * dnx
        let py := inner_prod * len_point / len_normal * dny
        fatan2 py px
  if inward_cone then angle + np_pi else angle

/-- Lines 416-425 of the source (identical in the radial driver at
287-297): the z-values of the sub-points and the updated z_max.  For an
inward cone on a travel move that changes X or Y, the z-values are the
straight line between the mapped endpoints; otherwise they are the
mapped cone heights of the sub-points, z_max is raised on extruding
moves (also from its initial value 0), and travel moves exceeding z_max
are clamped elementwise to z_max + 1. -/
def zValsAndMax (inward : Bool) (c : ℚ) (hasE upd : Bool) (z_layer z_max : ℚ)
    (x_old_bt y_old_bt x_new_bt y_new_bt : ℚ)
    (x_vals y_vals : List ℚ) (n : ℤ) : List ℚ × ℚ :=
  if inward && !hasE && upd then
    let z_start := z_layer + c * fsqrt (x_old_bt ^ 2 + y_old_bt ^ 2)
    let z_end := z_layer + c * fsqrt (x_new_bt ^ 2 + y_new_bt ^ 2)
    (linspaceQ z_start z_end n, z_max)
  else
    let mapped := List.zipWith (fun x y => z_layer + c * fsqrt (x ^ 2 + y ^ 2)) x_vals y_vals
    let m := listMax mapped
    let z_max' := if hasE && (z_max < m || z_max = 0) then m else z_max
    let zv := if !hasE && z_max < m then mapped.map (fun z => min z (z_max + 1)) else mapped
    (zv, z_max')

/-- All per-move intermediate values of the tangential driver body,
computed from the post-parse state. -/
structure MoveData where
  hasE : Bool
  x_old_bt : ℚ
  y_old_bt : ℚ
  x_new_bt : ℚ
  y_new_bt : ℚ
  dist : ℚ
  angle_new : ℚ
  n : ℤ
  x_vals : List ℚ
  y_vals : List ℚ
  z_vals : List ℚ
  z_max' : ℚ
  angle_vals : List ℚ
  u_vals : List ℚ
  dists_t : List ℚ
  dists_bt : List ℚ
  deriving Repr

/-- Lines 402-432 of the tangential driver: scaled coordinates, original
planar distance, new angle (only recomputed when X or Y changed),
segment count, interpolated sample points, z-values with z_max update,
angle and U sequences, and the per-segment lengths before and after the
backtransformation. -/
def mkMoveDataT (maximal_length : ℚ) (inward : Bool) (c : ℚ) (st : MState) (row : String) : MoveData :=
  let hasE := hasTok 'E' row
  let x_old_bt := st.x_old / fsqrt 2
  let y_old_bt := st.y_old / fsqrt 2
  let x_new_bt := st.x_new / fsqrt 2
  let y_new_bt := st.y_new / fsqrt 2
  let dist := norm2 (st.x_new - st.x_old) (st.y_new - st.y_old)
  let upd := st.update_x || st.update_y
  let angle_new :=
    if upd then compute_angle_tangential x_old_bt y_old_bt x_new_bt y_new_bt inward
    else st.angle_old
  let n := num_segm dist maximal_length
  let x_vals := linspaceQ x_old_bt x_new_bt n
  let y_vals := linspaceQ y_old_bt y_new_bt n
  let zz := zValsAndMax inward c hasE upd st.z_layer st.z_max
    x_old_bt y_old_bt x_new_bt y_new_bt x_vals y_vals n
  let angle_vals := st.angle_old :: List.replicate n.toNat angle_new
  let u_vals := compute_U_values angle_vals
  let dists_t := List.replicate n.toNat (dist / (n : ℚ))
  let dists_bt := List.zipWith3 norm3 (deltas x_vals) (deltas y_vals) (deltas zz.1)
  { hasE := hasE, x_old_bt := x_old_bt, y_old_bt := y_old_bt,
    x_new_bt := x_new_bt, y_new_bt := y_new_bt, dist := dist,
    angle_new := angle_new, n := n, x_vals := x_vals, y_vals := y_vals,
    z_vals := zz.1, z_max' := zz.2, angle_vals := angle_vals,
    u_vals := u_vals, dists_t := dists_t, dists_bt := dists_bt }

/-- Lines 439-447 of the tangential driver, one loop iteration: the
X, Y, Z tokens of the prepared row are rewritten for sub-point j + 1,
the extrusion is apportioned, and either the U value is inserted into
the motion line (step of at most 30 degrees) or the retract, rotate,
re-extrude triple is appended after the motion line. -/
def subXYZ (base : String) (x y z : ℚ) : String :=
  let s1 := String.mk (reSubAll 'X' ("X" ++ fmtQ (roundPy 3 x)).toList base.toList)
  let s2 := String.mk (reSubAll 'Y' ("Y" ++ fmtQ (roundPy 3 y)).toList s1.toList)
  String.mk (reSubAll 'Z' ("Z" ++ fmtQ (roundPy 3 z)).toList s2.toList)

/-- Continuation of the loop iteration above: after the coordinate
substitution, the extrusion is apportioned and the U value is either
inserted into the motion line (step at most 30 degrees) or emitted as
the appended retract, rotate, re-extrude triple. -/
def emitSegmentT (base : String) (x y z u_prev u_cur dt db : ℚ) : Except PyErr String :=
  match replace_E (subXYZ base x y z) dt db 1 with
  | .error e => .error e
  | .ok s4 =>
    if |u_cur - u_prev| ≤ 30 then insert_U s4 u_cur
    else .ok (s4 ++ "G1 E-0.800 \n" ++ "G1 U" ++ fmtQ u_cur ++ " \n" ++ "G1 E0.800 \n")

/-- The concatenation of the num_segm emitted sub-rows of one move. -/
def emitSegmentsT (base : String) (md : MoveData) : Except PyErr String :=
  (List.range md.n.toNat).foldlM
    (fun acc j => do
      let s ← emitSegmentT base (md.x_vals.getD (j + 1) 0) (md.y_vals.getD (j + 1) 0)
        (md.z_vals.getD (j + 1) 0) (md.u_vals.getD j 0) (md.u_vals.getD (j + 1) 0)
        (md.dists_t.getD j 0) (md.dists_bt.getD j 0)
      pure (acc ++ s))
    ""

/-- The axis-reset row appended when some |U| exceeds 3600: G92 with the
final raw angle of the move converted to degrees (angle_vals[-1]). -/
def g92Suffix (md : MoveData) : String :=
  "G92 U" ++ fmtQ (roundPy 2 (listLast md.angle_vals * 360 / (2 * np_pi))) ++ "\n"

/-- np.amax(np.absolute(u_vals)). -/
def maxAbsU (md : MoveData) : ℚ := listMax (md.u_vals.map (fun u => |u|))

/-- Lines 448-462 of the tangential driver: append the G92 reset row
when some continuous value exceeds 3600 in magnitude (resetting the
continuity baseline to the raw angle of the move), otherwise carry the
last emitted value back to radians; then commit the move by rolling
x_old and y_old forward and clearing the sticky flags. -/
def finishMove (st1 : MState) (md : MoveData) (body : String) : String × MState :=
  (if 3600 < maxAbsU md then body ++ g92Suffix md else body,
   { st1 with
     angle_old :=
       if 3600 < maxAbsU md then md.angle_new
       else listLast md.u_vals * 2 * np_pi / 360,
     z_max := md.z_max',
     x_old := if st1.update_x then st1.x_new else st1.x_old,
     y_old := if st1.update_y then st1.y_new else st1.y_old,
     update_x := false,
     update_y := false })

/-- One loop iteration of backtransform_data_tangential: non-move rows
and moves without any of X, Y, Z pass through; otherwise the move is
parsed, subdivided, emitted, and committed through finishMove. -/
def processRowT (maximal_length : ℚ) (inward : Bool) (c : ℚ) (st : MState) (row : String) :
    Except PyErr (String × MState) :=
  if !isMoveRow row then .ok (row, st)
  else if !(hasTok 'X' row || hasTok 'Y' row || hasTok 'Z' row) then .ok (row, st)
  else
    match parseFields st row with
    | .error e => .error e
    | .ok st1 =>
      let md := mkMoveDataT maximal_length inward c st1 row
      let row1 := insert_Z row (md.z_vals.getD 0 0)
      match replace_E row1 (md.n : ℚ) 1 (1 / fsqrt 2) with
      | .error e => .error e
      | .ok row2 =>
        match emitSegmentsT row2 md with
        | .error e => .error e
        | .ok body => .ok (finishMove st1 md body)

/-- The row loop of the tangential driver. -/
def tangentialLoop (maximal_length : ℚ) (inward : Bool) (c : ℚ) (acc : List String)
    (st : MState) : List String → Except PyErr (List String)
  | [] => .ok acc
  | row :: rest =>
    match processRowT maximal_length inward c st row with
    | .error e => .error e
    | .ok p => tangentialLoop maximal_length inward c (acc ++ [p.1]) p.2 rest

/-- backtransform_data_tangential of the source: admissibility check of
cone_type (ValueError otherwise), then the stateful pass over the rows. -/
def backtransform_data_tangential (data : List String) (cone_type : String)
    (maximal_length : ℚ) : Except PyErr (List String) :=
  if cone_type = "outward" then tangentialLoop maximal_length false (-1) [] initState data
  else if cone_type = "inward" then tangentialLoop maximal_length true 1 [] initState data
  else .error .valueError

/-- One loop iteration of backtransform_data_radial.  For a transformable
move row, the field parsing of lines 268-275 runs first and raises
ValueError on a malformed token; otherwise the body reaches line 299,
which calls compute_angle_radial with five positional arguments although
its signature takes three, so Python raises TypeError.  The numeric work
of lines 279-297 between the two is not modelled: for a POSITIVE
maximal_length it cannot raise (the segment count is at least 1, so no
empty array or zero division occurs) and its effects are discarded when
the exception aborts the whole call.  For maximal_length <= 0 the source
would raise a different error inside those lines, so every theorem about
the radial driver either fixes a positive maximal_length or assumes
0 < maximal_length. -/
def processRowR (st : MState) (row : String) : Except PyErr (String × MState) :=
  if !isMoveRow row then .ok (row, st)
  else if !(hasTok 'X' row || hasTok 'Y' row || hasTok 'Z' row) then .ok (row, st)
  else
    match parseFields st row with
    | .error e => .error e
    | .ok _ => .error .typeError

/-- The row loop of the radial driver. -/
def radialLoop (acc : List String) (st : MState) : List String → Except PyErr (List String)
  | [] => .ok acc
  | row :: rest =>
    match processRowR st row with
    | .error e => .error e
    | .ok p => radialLoop (acc ++ [p.1]) p.2 rest

/-- backtransform_data_radial of the source: the cone_type check, then
the pass; every transformable move row aborts with the arity TypeError
of the compute_angle_radial call.  The maximal_length parameter is kept
for signature fidelity; the pass fails before ever using it. -/
def backtransform_data_radial (data : List String) (cone_type : String)
    (maximal_length : ℚ) : Except PyErr (List String) :=
  if cone_type = "outward" then radialLoop [] initState data
  else if cone_type = "inward" then radialLoop [] initState data
  else .error .valueError

/-- A row is transformable when it is a move row carrying at least one
of the X, Y, Z patterns: exactly the rows on which the drivers enter the
rewriting branch. -/
def transformable (row : String) : Bool :=
  isMoveRow row && (hasTok 'X' row || hasTok 'Y' row || hasTok 'Z' row)

/-- The coordinate token of the given letter either is absent or parses
as a number (rules out stray minus signs such as X-). -/
def tokParses (letter : Char) (row : String) : Bool :=
  match reSearchL letter row.toList with
  | none => true
  | some (_, tok, _) => (pyFloat (tok.filter (· ≠ letter))).isSome

/-- Every coordinate token of the row that the drivers would read parses
as a number.  Only rows on which the drivers enter the rewriting branch
are ever parsed, so this matters only for transformable rows. -/
def wellFormedRow (row : String) : Bool :=
  tokParses 'Z' row && tokParses 'X' row && tokParses 'Y' row

/-!
The three angle-strategy functions over the real numbers.  The range
claims about them are real-analytic statements about arctan2, so this
section models the floating-point functions by their ideal real
counterparts: np.sqrt as Real.sqrt, np.arctan2 with the usual quadrant
convention built from Real.arctan.  Signed zeros are not representable;
the claims under study do not depend on them.
-/

namespace RealAngle

open Real

/-- np.arctan2 over the reals. -/
noncomputable def arctan2 (y x : ℝ) : ℝ :=
  if 0 < x then Real.arctan (y / x)
  else if x < 0 then
    (if 0 ≤ y then Real.arctan (y / x) + π else Real.arctan (y / x) - π)
  else if 0 < y then π / 2
  else if y < 0 then -(π / 2)
  else 0

/-- compute_angle_radial of the source: the arctan2 direction of the new
point, plus pi for the inward cone. -/
noncomputable def compute_angle_radial (x_new y_new : ℝ) (inward_cone : Bool) : ℝ :=
  let angle := arctan2 y_new x_new
  if inward_cone then angle + π else angle

/-- compute_angle_tangential of the source over the reals. -/
noncomputable def compute_angle_tangential (x_old y_old x_new y_new : ℝ) (inward_cone : Bool) : ℝ :=
  let dnx := -(y_new - y_old)
  let dny := x_new - x_old
  let len_normal := Real.sqrt (dnx ^ 2 + dny ^ 2)
  let len_point := Real.sqrt (x_new ^ 2 + y_new ^ 2)
  let angle :=
    if len_normal * len_point = 0 then arctan2 y_new x_new
    else
      let inner_prod := dnx / len_normal * (x_new / len_point) + dny / len_normal * (y_new / len_point)
      if |inner_prod| ≤ 1/100 then arctan2 dny dnx
      else arctan2 (inner_prod * len_point / len_normal * dny) (inner_prod * len_point / len_normal * dnx)
  if inward_cone then angle + π else angle

/-- compute_angle_mixed of the source over the reals: radial direction
for invisible regions, the tangential computation for visible ones. -/
noncomputable def compute_angle_mixed (x_old y_old x_new y_new : ℝ) (inward_cone visible_print : Bool) : ℝ :=
  let angle :=
    if visible_print = false then arctan2 y_new x_new
    else
      let dnx := -(y_new - y_old)
      let dny := x_new - x_old
      let len_normal := Real.sqrt (dnx ^ 2 + dny ^ 2)
      let len_point := Real.sqrt (x_new ^ 2 + y_new ^ 2)
      if len_normal * len_point = 0 then arctan2 y_new x_new
      else
        let inner_prod := dnx / len_normal * (x_new / len_point) + dny / len_normal * (y_new / len_point)
        if |inner_prod| ≤ 1/100 then arctan2 dny dnx
        else arctan2 (inner_prod * len_point / len_normal * dny) (inner_prod * len_point / len_normal * dnx)
  if inward_cone then angle + π else angle

end RealAngle

/-- Machine state after an extruding move to x = 5 on the x-axis with a
carried continuous angle of 63.1 rad (about 3615 degrees, reachable by a
long spiralling print). -/
def stC6 : MState := { initState with x_old := 5, x_new := 5, angle_old := 631/10 }

/-- The state stC6 after parsing the row G1 X10 E1.0. -/
def stC6p : MState := { stC6 with x_new := 10, update_x := true }

/-- Machine state after an extruding move to x = 5 on the x-axis with the
carried angle pi / 2 (the tangential angle of moves along the x-axis). -/
def stC9 : MState := { initState with x_old := 5, x_new := 5, angle_old := np_pi / 2 }

/-- Machine state at the origin with a recorded extrusion height of 1. -/
def stC9w : MState := { initState with z_max := 1 }

/-- The state stC9w after processing the travel row G1 X3 F100. -/
def stC9w' : MState :=
  { initState with x_old := 3, x_new := 3, angle_old := np_pi / 2, z_max := 1 }

/-- The initial state after parsing the row G1 X10 Y0 E1.0. -/
def stMove10 : MState := { initState with x_new := 10, update_x := true, update_y := true }

/-- The move body of the stC6 run before the G92 suffix. -/
def bodyC6 : String :=
  "G1 X5.303 Z-5.303 E0.353553\nG1 E-0.800 \nG1 U3690.0 \nG1 E0.800 \nG1 X7.071 Z-7.071 U3690.0 E0.353553\n"

/-- The prepared whole-move row of the stC6 run (insert_Z with the
mapped height of the start point, then the whole-move replace_E). -/
def row2C6 : String := "G1 X10 Z-3.536 E0.353553\n"

/-- The output of the tangential driver on the single scenario row
G1 X10 Y0 E1.0 from the origin with maximal length 5 on the outward cone. -/
def outC5 : String :=
  "G1 X2.357 Y0.0 Z-2.357 E0.235702\nG1 E-0.800 \nG1 U90.0 \nG1 E0.800 \nG1 X4.714 Y0.0 Z-4.714 U90.0 E0.235702\nG1 X7.071 Y0.0 Z-7.071 U90.0 E0.235702\n"

/-- The output row of the travel move G1 X3 F100 from stC9w. -/
def outC9w : String := "G1 X2.121 Z-2.121 F100\nG1 E-0.800 \nG1 U90.0 \nG1 E0.800 \n"


/-!
Theorems.  The local reducibility attributes restore kernel-style
unfolding of the rational arithmetic primitives so that concrete runs
can be checked by decide (the kernel itself ignores reducibility
attributes; they only guide the elaborator).
-/

section ClaimTheorems

attribute [local semireducible] Rat.mul Rat.inv Rat.add Rat.sub Rat.ofScientific

set_option maxRecDepth 4000000

/-- C1: the spec scenario expects the radial strategy on the outward
45-degree cone with maximal length 5 to rewrite the single row
G1 X10 Y0 E1.0 from the origin into 2 sub-segment rows at X 3.54 and
7.07.  The code instead aborts: the radial driver calls
compute_angle_radial with five positional arguments while its signature
takes three, so Python raises TypeError before any rewritten row is
produced.  This theorem evaluates the modelled code at exactly the
failing scenario input. -/
theorem C1_radial_scenario_typeError :
    backtransform_data_radial ["G1 X10 Y0 E1.0\n"] "outward" 5 = .error .typeError := by
  decide

/-- C10: replace_E rewrites the E value by the factor
dist_new * corr_value / dist_old rounded to 6 decimals (fourth
conjunct: 2.0 * 3 * 0.5 / 4 = 0.75), passes rows without an E field
through unchanged (second conjunct), and emits amount 0 when
dist_old = 0 instead of failing (third conjunct); but the claim that it
never aborts the pass is violated: on a row whose E token is a bare
minus sign (matched by the pattern E[-0-9]+[.]?[0-9]*), float() raises
ValueError and the pass dies (first conjunct), contradicting the error
handling design of the spec. -/
theorem C10_replaceE_valueError :
    replace_E "G1 E- \n" 1 1 1 = .error .valueError
    ∧ replace_E "G1 X5 F100 \n" 2 3 1 = .ok "G1 X5 F100 \n"
    ∧ replace_E "G1 X5 E2.0 \n" 0 3 1 = .ok "G1 X5 E0 \n"
    ∧ replace_E "G1 X5 E2.0 \n" 4 3 (1/2) = .ok "G1 X5 E0.75 \n" := by
  decide

/-- C3 counterexample: on the input sequence [-0.00002, 3.141551] the
uniquely closest candidate 3.141551 + 2 pi k to the carried value
-0.00002 is the one with k = 0 (second and third conjuncts, under both
the radian and the emitted-degree reading of closeness), and its
degree value rounds to 180 (fourth conjunct); but compute_U_values
emits -180 (first conjunct), a value a full turn away, because the code
rounds the candidates to 4 decimals before comparing and the rounded
candidate -3.1416 then wins against the carried value.  The emitted
value is not the closest raw candidate, refuting the claim as stated. -/
theorem C3_unwrapper_cex :
    compute_U_values [-1/50000, 3141551/1000000] = [0, -180]
    ∧ (∀ k : ℤ, k ∈ Finset.Icc (-10 : ℤ) 10 → k ≠ 0 →
        |(3141551/1000000 : ℚ) - (-1/50000)| <
          |(3141551/1000000 + (k : ℚ) * 2 * np_pi) - (-1/50000)|)
    ∧ (∀ k : ℤ, k ∈ Finset.Icc (-10 : ℤ) 10 → k ≠ 0 →
        |(3141551/1000000 : ℚ)| < |(3141551/1000000 + (k : ℚ) * 2 * np_pi)|)
    ∧ roundPy 2 ((3141551/1000000 : ℚ) * 360 / (2 * np_pi)) = 180
    ∧ ((-180 : ℚ) ≠ 180) := by
  decide

/-- C4 counterexample: an inward-cone travel move (no E field) that
changes X takes the interpolated branch of the z computation, so its
sub-point at mapped height 5 (third conjunct exceeds z_max = 2) is
emitted unclamped as 5 (first conjunct) although the claim demands
min(5, z_max + 1) = 3 (last conjunct). -/
theorem C4_travel_clamp_cex :
    (zValsAndMax true 1 false true 0 2 0 0 10 0 (linspaceQ 0 10 2) (linspaceQ 0 0 2) 2).1
      = [0, 5, 10]
    ∧ ((0 : ℚ) + 1 * fsqrt (5 ^ 2 + 0 ^ 2) = 5)
    ∧ ((2 : ℚ) < 5)
    ∧ ¬ ((5 : ℚ) = min 5 (2 + 1)) := by
  decide

/-- C9 counterexample: on the outward cone the mapped heights are
negative, and the escape clause z_max == 0 of the update condition lets
an extruding move (second conjunct) lower z_max from its initial 0 to a
negative value (first conjunct), so z_max is not monotonically
non-decreasing over the pass. -/
theorem C9_zmax_cex :
    (processRowT 5 false (-1) stC9 "G1 X10 E1.0\n").map
        (fun p => decide (p.2.z_max < stC9.z_max)) = .ok true
    ∧ hasTok 'E' "G1 X10 E1.0\n" = true := by
  decide

/-- C5 counterexample: in the tangential driver (the only driver that
does not abort on transformable rows) a rotary step larger than 30
degrees (third conjunct: the first sub-segment steps from 0 to 90) is
emitted as the motion line FOLLOWED by the retract, rotate, re-extrude
triple: the emitted text for the move begins with the motion line
G1 X2.357 and not with the retraction G1 E-0.800 (last two conjuncts),
refuting the claimed order retraction, rotation, re-extrusion before
the motion line. -/
theorem C5_retract_order_cex :
    backtransform_data_tangential ["G1 X10 Y0 E1.0\n"] "outward" 5 = .ok [outC5]
    ∧ parseFields initState "G1 X10 Y0 E1.0\n" = .ok stMove10
    ∧ 30 < |(mkMoveDataT 5 false (-1) stMove10 "G1 X10 Y0 E1.0\n").u_vals.getD 1 0 -
            (mkMoveDataT 5 false (-1) stMove10 "G1 X10 Y0 E1.0\n").u_vals.getD 0 0|
    ∧ strStarts outC5 "G1 E-0.800" = false
    ∧ strStarts outC5 "G1 X2.357" = true := by
  decide

/-- C6 counterexample: in the run from state stC6 the continuous rotary
values [3615.36, 3690, 3690] exceed 3600 (second and third conjuncts),
so the driver appends an axis reset; but the G92 row carries 90.0, the
degree value of the final raw wrapped angle (last conjunct), and not
the unwrapped final value 3690 of the sequence (fourth and fifth
conjuncts), refuting the claimed reset-to-the-unwrapped-value. -/
theorem C6_g92_cex :
    parseFields stC6 "G1 X10 E1.0\n" = .ok stC6p
    ∧ (mkMoveDataT 5 false (-1) stC6p "G1 X10 E1.0\n").u_vals = [90384/25, 3690, 3690]
    ∧ 3600 < maxAbsU (mkMoveDataT 5 false (-1) stC6p "G1 X10 E1.0\n")
    ∧ (processRowT 5 false (-1) stC6 "G1 X10 E1.0\n").map
        (fun p => strEnds p.1 ("G92 U" ++ fmtQ 3690 ++ "\n")) = .ok false
    ∧ (processRowT 5 false (-1) stC6 "G1 X10 E1.0\n").map
        (fun p => strEnds p.1 "G92 U90.0\n") = .ok true
    ∧ roundPy 2 (listLast (mkMoveDataT 5 false (-1) stC6p "G1 X10 E1.0\n").angle_vals
        * 360 / (2 * np_pi)) = 90 := by
  decide


/-- Helper for C2: a row that the drivers do not transform passes
through with the state unchanged. -/
theorem processRowR_pass (st : MState) (row : String) (ht : transformable row = false) :
    processRowR st row = .ok (row, st) := by
  unfold processRowR
  unfold transformable at ht
  cases hm : isMoveRow row with
  | false => simp [hm]
  | true =>
    rw [hm] at ht
    simp only [Bool.true_and] at ht
    simp [hm, ht]

/-- Helper for C2: a well-formed coordinate field parses without a
ValueError. -/
theorem parseCoord_ok (letter : Char) (row : String) (h : tokParses letter row = true) :
    ∃ o, parseCoord letter row = .ok o := by
  unfold tokParses at h
  unfold parseCoord
  cases hr : reSearchL letter row.toList with
  | none => exact ⟨none, rfl⟩
  | some p =>
    obtain ⟨pre, tok, post⟩ := p
    simp only [hr] at h
    obtain ⟨v, hv⟩ := Option.isSome_iff_exists.mp h
    simp only [hv]
    exact ⟨some v, rfl⟩

/-- Helper for C2: a malformed coordinate field makes float() raise
ValueError, the only error parseCoord can produce. -/
theorem parseCoord_err (letter : Char) (row : String) (h : tokParses letter row = false) :
    parseCoord letter row = .error .valueError := by
  unfold tokParses at h
  unfold parseCoord
  cases hr : reSearchL letter row.toList with
  | none => simp only [hr] at h; cases h
  | some p =>
    obtain ⟨pre, tok, post⟩ := p
    simp only [hr] at h
    dsimp only
    cases hp : pyFloat (tok.filter (· ≠ letter)) with
    | none => simp only [hp]
    | some v => rw [hp] at h; cases h

/-- Helper for C2: the field-reading prologue succeeds on well-formed
rows. -/
theorem parseFields_ok (st : MState) (row : String) (hw : wellFormedRow row = true) :
    ∃ st1, parseFields st row = .ok st1 := by
  unfold wellFormedRow at hw
  rw [Bool.and_eq_true, Bool.and_eq_true] at hw
  obtain ⟨⟨hz, hx⟩, hy⟩ := hw
  obtain ⟨oz, hoz⟩ := parseCoord_ok 'Z' row hz
  obtain ⟨ox, hox⟩ := parseCoord_ok 'X' row hx
  obtain ⟨oy, hoy⟩ := parseCoord_ok 'Y' row hy
  refine ⟨{ st with
            z_layer := oz.getD st.z_layer,
            x_new := ox.getD st.x_new,
            update_x := st.update_x || ox.isSome,
            y_new := oy.getD st.y_new,
            update_y := st.update_y || oy.isSome }, ?_⟩
  unfold parseFields
  rw [hoz, hox, hoy]

/-- Helper for C2: on a row with some malformed coordinate token the
field-reading prologue dies with ValueError (the first failing token in
source order Z, X, Y; every failure is a ValueError). -/
theorem parseFields_err (st : MState) (row : String) (hw : wellFormedRow row = false) :
    parseFields st row = .error .valueError := by
  unfold wellFormedRow at hw
  cases hz : tokParses 'Z' row with
  | false =>
    unfold parseFields
    rw [parseCoord_err 'Z' row hz]
  | true =>
    obtain ⟨oz, hoz⟩ := parseCoord_ok 'Z' row hz
    cases hx : tokParses 'X' row with
    | false =>
      unfold parseFields
      rw [hoz]
      dsimp only
      rw [parseCoord_err 'X' row hx]
    | true =>
      obtain ⟨ox, hox⟩ := parseCoord_ok 'X' row hx
      rw [hz, hx] at hw
      simp only [Bool.true_and] at hw
      unfold parseFields
      rw [hoz]
      dsimp only
      rw [hox]
      dsimp only
      rw [parseCoord_err 'Y' row hw]

/-- Helper for C2: on every transformable well-formed row the radial
body reaches the five-argument call of compute_angle_radial and dies
with TypeError. -/
theorem processRowR_err (st : MState) (row : String) (ht : transformable row = true)
    (hw : wellFormedRow row = true) :
    processRowR st row = .error .typeError := by
  unfold transformable at ht
  rw [Bool.and_eq_true] at ht
  obtain ⟨hm, hxyz⟩ := ht
  obtain ⟨st1, h1⟩ := parseFields_ok st row hw
  simp [processRowR, hm, hxyz, h1]

/-- Helper for C2: on a transformable row with a malformed coordinate
token the radial body dies earlier, at float(), with ValueError. -/
theorem processRowR_bad (st : MState) (row : String) (ht : transformable row = true)
    (hw : wellFormedRow row = false) :
    processRowR st row = .error .valueError := by
  unfold transformable at ht
  rw [Bool.and_eq_true] at ht
  obtain ⟨hm, hxyz⟩ := ht
  have h1 := parseFields_err st row hw
  simp [processRowR, hm, hxyz, h1]

/-- Helper for C2: the radial row loop aborts at the first transformable
row: with the arity TypeError when its tokens parse, with the float()
ValueError when they do not. -/
theorem radialLoop_find (rows : List String) :
    ∀ (acc : List String) (st : MState) (r0 : String),
      rows.find? transformable = some r0 →
      radialLoop acc st rows =
        .error (if wellFormedRow r0 = true then PyErr.typeError else PyErr.valueError) := by
  induction rows with
  | nil => intro acc st r0 h; simp at h
  | cons row rest ih =>
    intro acc st r0 h
    by_cases ht : transformable row = true
    · have hr : r0 = row := by
        rw [List.find?_cons_of_pos _ ht] at h
        exact (Option.some.inj h).symm
      subst hr
      cases hw : wellFormedRow r0 with
      | true =>
        rw [if_pos rfl]
        have he := processRowR_err st r0 ht hw
        simp [radialLoop, he]
      | false =>
        rw [if_neg (by simp [hw])]
        have he := processRowR_bad st r0 ht hw
        simp [radialLoop, he]
    · have ht' : transformable row = false := by simpa using ht
      rw [List.find?_cons_of_neg _ (by simp [ht'])] at h
      have hp := processRowR_pass st row ht'
      rw [radialLoop, hp]
      exact ih (acc ++ [row]) st r0 h

/-- C2 counterexample: the row G1 X- begins with G1 and carries an X
field in the sense of the pattern X[-0-9]+[.]?[0-9]* (first conjunct),
so the claim covers it and promises a TypeError; but float(-) at line
271 raises ValueError before the five-argument call at line 299 is ever
reached, so the pass aborts with ValueError, not TypeError (second and
third conjuncts). -/
theorem C2_radial_typeError_cex :
    transformable "G1 X- \n" = true
    ∧ backtransform_data_radial ["G1 X- \n"] "outward" 5 = .error .valueError
    ∧ PyErr.valueError ≠ PyErr.typeError := by
  decide

/-- C2 amended: for every admissible cone type, every positive maximal
length, and every input list containing a move row that carries an X, Y
or Z field, the radial driver aborts at the first such (transformable)
row before emitting any rewritten line: with the TypeError of the
five-positional-argument call of the three-parameter
compute_angle_radial when the tokens of that row parse as numbers, and
with a ValueError already at float() when they do not; in either case
the radial path never produces output for any transformable motion
line.  The hypothesis 0 < maximal_length scopes the statement to the
regime where the unmodelled numeric lines 279-297 cannot raise (see
processRowR); the model does not otherwise depend on it. -/
theorem C2_radial_always_typeError (data : List String) (cone_type : String)
    (maximal_length : ℚ) (r0 : String)
    (hct : cone_type = "outward" ∨ cone_type = "inward")
    (hml : 0 < maximal_length)
    (hfind : data.find? transformable = some r0) :
    (wellFormedRow r0 = true →
      backtransform_data_radial data cone_type maximal_length = .error .typeError)
    ∧ (wellFormedRow r0 = false →
      backtransform_data_radial data cone_type maximal_length = .error .valueError)
    ∧ ∃ e, backtransform_data_radial data cone_type maximal_length = .error e := by
  have hdrv : backtransform_data_radial data cone_type maximal_length
      = radialLoop [] initState data := by
    rcases hct with rfl | rfl
    · unfold backtransform_data_radial
      rw [if_pos rfl]
    · unfold backtransform_data_radial
      rw [if_neg (by decide), if_pos rfl]
  have hloop := radialLoop_find data [] initState r0 hfind
  refine ⟨?_, ?_, ?_⟩
  · intro hw
    rw [hdrv, hloop, if_pos hw]
  · intro hw
    rw [hdrv, hloop, if_neg (by simp [hw])]
  · rw [hdrv, hloop]
    exact ⟨_, rfl⟩

/-- C2 witness: a concrete input whose non-move comment row contains the
text X- (never parsed, since only transformable rows are parsed) and
whose first transformable row is well-formed: the pass aborts with the
arity TypeError. -/
theorem C2_radial_always_typeError_witness :
    (["; X- hi\n", "G1 X10 Y0 E1.0\n"].find? transformable = some "G1 X10 Y0 E1.0\n")
    ∧ wellFormedRow "G1 X10 Y0 E1.0\n" = true
    ∧ backtransform_data_radial ["; X- hi\n", "G1 X10 Y0 E1.0\n"] "outward" 5
        = .error .typeError :=
  ⟨by decide, by decide,
    (C2_radial_always_typeError ["; X- hi\n", "G1 X10 Y0 E1.0\n"] "outward" 5
      "G1 X10 Y0 E1.0\n" (.inl rfl) (by norm_num) (by decide)).1 (by decide)⟩


/-- C5 amended: in the tangential driver (the only strategy driver that
survives a transformable row), whenever consecutive continuous rotary
values differ by more than 30 degrees, the sub-segment is emitted as the
motion line (coordinate substitution and extrusion apportioning only,
with no U value inserted) followed by the retraction G1 E-0.800, the
rotation-only line G1 U with the target value, and the re-extrusion
G1 E0.800, in that order after the motion line. -/
theorem C5_retract_order_amended (base : String) (x y z u_prev u_cur dt db : ℚ)
    (h : 30 < |u_cur - u_prev|) :
    emitSegmentT base x y z u_prev u_cur dt db =
      (replace_E (subXYZ base x y z) dt db 1).map
        (fun s4 => s4 ++ "G1 E-0.800 \n" ++ "G1 U" ++ fmtQ u_cur ++ " \n" ++ "G1 E0.800 \n") := by
  unfold emitSegmentT
  cases hre : replace_E (subXYZ base x y z) dt db 1 with
  | error e => rfl
  | ok s4 =>
    show (if |u_cur - u_prev| ≤ 30 then insert_U s4 u_cur
          else Except.ok (s4 ++ "G1 E-0.800 \n" ++ "G1 U" ++ fmtQ u_cur ++ " \n" ++ "G1 E0.800 \n"))
        = _
    rw [if_neg (not_le.mpr h)]
    rfl

/-- C5 witness: the amended order theorem applied to the first
sub-segment of the scenario move, whose rotary step is 90 degrees. -/
theorem C5_retract_order_amended_witness :
    30 < |(90 : ℚ) - 0|
    ∧ emitSegmentT "G1 X10 Y0 Z0.0 E0.235702\n" (7071/3000) 0 (-(7071 : ℚ)/3000) 0 90
        (10/3) (10/3)
      = .ok "G1 X2.357 Y0.0 Z-2.357 E0.235702\nG1 E-0.800 \nG1 U90.0 \nG1 E0.800 \n" :=
  ⟨by norm_num,
    (C5_retract_order_amended "G1 X10 Y0 Z0.0 E0.235702\n" (7071/3000) 0 (-(7071 : ℚ)/3000) 0 90
      (10/3) (10/3) (by norm_num)).trans (by decide)⟩

/-- C4 amended: the clamping branch of the z computation applies exactly
when the move has no E field and is not an inward-cone move with an XY
update: an extruding move is never clamped (first conjunct); a travel
move outside the inward-and-XY-update case whose mapped height exceeds
z_max is clamped elementwise to min(original mapped z, z_max + 1)
(second conjunct), and left unchanged when nothing exceeds z_max (third
conjunct).  Inward-cone travel moves with an XY update take the
interpolated branch instead and are never clamped (see the C4
counterexample). -/
theorem C4_travel_clamp_amended (inward upd hasE : Bool) (c z_layer z_max xo yo xn yn : ℚ)
    (xs ys : List ℚ) (n : ℤ) :
    (hasE = true →
      (zValsAndMax inward c hasE upd z_layer z_max xo yo xn yn xs ys n).1 =
        List.zipWith (fun x y => z_layer + c * fsqrt (x ^ 2 + y ^ 2)) xs ys)
    ∧ (hasE = false → (inward = false ∨ upd = false) →
        z_max < listMax (List.zipWith (fun x y => z_layer + c * fsqrt (x ^ 2 + y ^ 2)) xs ys) →
        (zValsAndMax inward c hasE upd z_layer z_max xo yo xn yn xs ys n).1 =
          (List.zipWith (fun x y => z_layer + c * fsqrt (x ^ 2 + y ^ 2)) xs ys).map
            (fun zz => min zz (z_max + 1)))
    ∧ (hasE = false → (inward = false ∨ upd = false) →
        listMax (List.zipWith (fun x y => z_layer + c * fsqrt (x ^ 2 + y ^ 2)) xs ys) ≤ z_max →
        (zValsAndMax inward c hasE upd z_layer z_max xo yo xn yn xs ys n).1 =
          List.zipWith (fun x y => z_layer + c * fsqrt (x ^ 2 + y ^ 2)) xs ys) := by
  refine ⟨?_, ?_, ?_⟩
  · rintro rfl
    simp [zValsAndMax]
  · rintro rfl hdis hlt
    rcases hdis with rfl | rfl <;> simp [zValsAndMax, hlt]
  · rintro rfl hdis hle
    rcases hdis with rfl | rfl <;> simp [zValsAndMax, not_lt.mpr hle]

/-- C4 witness: the spec scenario adjusted to a move the clamp branch
actually covers: an inward-cone travel move with no XY change whose
mapped height 6 exceeds z_max = 2 is emitted with every z clamped to
min(6, 2 + 1) = 3. -/
theorem C4_travel_clamp_amended_witness :
    ((2 : ℚ) <
      listMax (List.zipWith (fun x y => (6 : ℚ) + 1 * fsqrt (x ^ 2 + y ^ 2))
        (linspaceQ 0 0 1) (linspaceQ 0 0 1)))
    ∧ (zValsAndMax true 1 false false 6 2 0 0 0 0 (linspaceQ 0 0 1) (linspaceQ 0 0 1) 1).1
        = [3, 3] :=
  ⟨by decide,
    ((C4_travel_clamp_amended true false false 1 6 2 0 0 0 0 (linspaceQ 0 0 1)
      (linspaceQ 0 0 1) 1).2.1 rfl (Or.inr rfl) (by decide)).trans (by decide)⟩


/-- Helper for C9: the field-reading prologue never touches z_max. -/
theorem parseFields_zmax (st : MState) (row : String) (st1 : MState)
    (h : parseFields st row = .ok st1) : st1.z_max = st.z_max := by
  unfold parseFields at h
  cases hz : parseCoord 'Z' row with
  | error e => rw [hz] at h; cases h
  | ok z =>
    rw [hz] at h
    cases hx : parseCoord 'X' row with
    | error e => rw [hx] at h; cases h
    | ok x =>
      rw [hx] at h
      cases hy : parseCoord 'Y' row with
      | error e => rw [hy] at h; cases h
      | ok y =>
        rw [hy] at h
        cases Except.ok.inj h
        rfl

/-- Helper for C9: the z_max component returned by the z computation is
unchanged on travel moves, and can only grow when the old value is
nonzero. -/
theorem zValsAndMax_snd (inward upd hasE : Bool) (c z_layer z_max xo yo xn yn : ℚ)
    (xs ys : List ℚ) (n : ℤ) :
    (hasE = false →
      (zValsAndMax inward c hasE upd z_layer z_max xo yo xn yn xs ys n).2 = z_max)
    ∧ (z_max ≠ 0 →
      z_max ≤ (zValsAndMax inward c hasE upd z_layer z_max xo yo xn yn xs ys n).2) := by
  constructor
  · rintro rfl
    unfold zValsAndMax
    split
    · rfl
    · simp
  · intro h0
    unfold zValsAndMax
    split
    · rfl
    · dsimp only
      split
      · next hcond =>
        rw [Bool.and_eq_true, Bool.or_eq_true] at hcond
        rcases hcond with ⟨-, hlt | hz0⟩
        · exact le_of_lt (of_decide_eq_true hlt)
        · exact absurd (of_decide_eq_true hz0) h0
      · exact le_refl z_max

/-- Helper for C9: the z_max field of the move data is the second
component of the z computation on the post-parse state. -/
theorem mkMoveDataT_zmax (ml : ℚ) (inward : Bool) (c : ℚ) (st : MState) (row : String) :
    (mkMoveDataT ml inward c st row).z_max' =
      (zValsAndMax inward c (hasTok 'E' row) (st.update_x || st.update_y) st.z_layer st.z_max
        (st.x_old / fsqrt 2) (st.y_old / fsqrt 2) (st.x_new / fsqrt 2) (st.y_new / fsqrt 2)
        (linspaceQ (st.x_old / fsqrt 2) (st.x_new / fsqrt 2)
          (num_segm (norm2 (st.x_new - st.x_old) (st.y_new - st.y_old)) ml))
        (linspaceQ (st.y_old / fsqrt 2) (st.y_new / fsqrt 2)
          (num_segm (norm2 (st.x_new - st.x_old) (st.y_new - st.y_old)) ml))
        (num_segm (norm2 (st.x_new - st.x_old) (st.y_new - st.y_old)) ml)).2 := rfl

/-- C9 amended: across one pass of the tangential driver, z_max is
updated only by moves that carry an E field (first conjunct), and it is
non-decreasing from any nonzero value (second conjunct).  From its
initial value 0 the escape clause z_max == 0 of the update condition
can record a negative first height, so unconditional monotonicity fails
(see the C9 counterexample). -/
theorem C9_zmax_amended (ml : ℚ) (inward : Bool) (c : ℚ) (st : MState) (row : String)
    (s : String) (st' : MState)
    (h : processRowT ml inward c st row = .ok (s, st')) :
    (hasTok 'E' row = false → st'.z_max = st.z_max)
    ∧ (st.z_max ≠ 0 → st.z_max ≤ st'.z_max) := by
  unfold processRowT at h
  split at h
  · cases Except.ok.inj h
    exact ⟨fun _ => rfl, fun _ => le_refl _⟩
  · split at h
    · cases Except.ok.inj h
      exact ⟨fun _ => rfl, fun _ => le_refl _⟩
    · split at h
      · simp at h
      · rename_i st1 heq
        have hz1 : st1.z_max = st.z_max := parseFields_zmax st row st1 heq
        dsimp only at h
        split at h
        · simp at h
        · split at h
          · simp at h
          · rename_i body heq3
            have hsnd : (finishMove st1 (mkMoveDataT ml inward c st1 row) body).2 = st' :=
              congrArg Prod.snd (Except.ok.inj h)
            constructor
            · intro hE
              rw [← hsnd]
              show (mkMoveDataT ml inward c st1 row).z_max' = st.z_max
              rw [mkMoveDataT_zmax, ← hz1]
              exact (zValsAndMax_snd inward (st1.update_x || st1.update_y) (hasTok 'E' row) c
                st1.z_layer st1.z_max _ _ _ _ _ _ _).1 hE
            · intro h0
              rw [← hsnd]
              show st.z_max ≤ (mkMoveDataT ml inward c st1 row).z_max'
              rw [mkMoveDataT_zmax, ← hz1]
              exact (zValsAndMax_snd inward (st1.update_x || st1.update_y) (hasTok 'E' row) c
                st1.z_layer st1.z_max _ _ _ _ _ _ _).2 (hz1 ▸ h0)

/-- C9 witness: the amended theorem applied to a travel row processed
from a state with recorded height 1: z_max is unchanged and in
particular non-decreasing. -/
theorem C9_zmax_amended_witness :
    stC9w'.z_max = stC9w.z_max ∧ stC9w.z_max ≤ stC9w'.z_max :=
  ⟨(C9_zmax_amended 5 false (-1) stC9w "G1 X3 F100\n" outC9w stC9w' (by decide)).1 (by decide),
   (C9_zmax_amended 5 false (-1) stC9w "G1 X3 F100\n" outC9w stC9w' (by decide)).2
     (by norm_num [stC9w, initState])⟩


/-- C6 amended: when a move parses and emits successfully, the driver
appends exactly one G92 axis-reset row after the sub-segment rows
exactly when some value of the continuous sequence (the carried-over
baseline included) exceeds 3600 in magnitude; the reset row carries the
final RAW (wrapped) angle of the move converted to degrees (the
g92Suffix definition), not the unwrapped final value, and the
continuity baseline is reset to that raw angle; otherwise no G92 row is
appended and the baseline becomes the last emitted value converted back
to radians. -/
theorem C6_g92_amended (ml : ℚ) (inward : Bool) (c : ℚ) (st st1 : MState)
    (row row2 body : String)
    (hm : isMoveRow row = true)
    (hxyz : (hasTok 'X' row || hasTok 'Y' row || hasTok 'Z' row) = true)
    (hp : parseFields st row = .ok st1)
    (hre : replace_E (insert_Z row ((mkMoveDataT ml inward c st1 row).z_vals.getD 0 0))
        ((mkMoveDataT ml inward c st1 row).n : ℚ) 1 (1 / fsqrt 2) = .ok row2)
    (hem : emitSegmentsT row2 (mkMoveDataT ml inward c st1 row) = .ok body) :
    (3600 < maxAbsU (mkMoveDataT ml inward c st1 row) →
      (processRowT ml inward c st row).map (fun p => (p.1, p.2.angle_old)) =
        .ok (body ++ g92Suffix (mkMoveDataT ml inward c st1 row),
             (mkMoveDataT ml inward c st1 row).angle_new))
    ∧ (maxAbsU (mkMoveDataT ml inward c st1 row) ≤ 3600 →
      (processRowT ml inward c st row).map (fun p => (p.1, p.2.angle_old)) =
        .ok (body, listLast (mkMoveDataT ml inward c st1 row).u_vals * 2 * np_pi / 360)) := by
  have hrun : processRowT ml inward c st row
      = .ok (finishMove st1 (mkMoveDataT ml inward c st1 row) body) := by
    unfold processRowT
    rw [hm, hxyz]
    simp only [Bool.not_true, Bool.false_eq_true, if_false]
    rw [hp]
    dsimp only
    rw [hre]
    dsimp only
    rw [hem]
  constructor
  · intro hgt
    rw [hrun]
    dsimp only [Except.map, finishMove]
    rw [if_pos hgt, if_pos hgt]
  · intro hle
    rw [hrun]
    dsimp only [Except.map, finishMove]
    rw [if_neg (not_lt.mpr hle), if_neg (not_lt.mpr hle)]

/-- C6 witness: the amended theorem applied to the concrete stC6 run in
which the continuous values reach 3690: the emitted text is the body
followed by the G92 suffix, and the baseline resets to the raw angle of
the move. -/
theorem C6_g92_amended_witness :
    3600 < maxAbsU (mkMoveDataT 5 false (-1) stC6p "G1 X10 E1.0\n")
    ∧ (processRowT 5 false (-1) stC6 "G1 X10 E1.0\n").map (fun p => (p.1, p.2.angle_old)) =
        .ok (bodyC6 ++ g92Suffix (mkMoveDataT 5 false (-1) stC6p "G1 X10 E1.0\n"),
             (mkMoveDataT 5 false (-1) stC6p "G1 X10 E1.0\n").angle_new) :=
  ⟨by decide,
   (C6_g92_amended 5 false (-1) stC6 stC6p "G1 X10 E1.0\n" row2C6 bodyC6
      (by decide) (by decide) (by decide) (by decide) (by decide)).1 (by decide)⟩

/-- Helper for C7: the square-root model is nonnegative. -/
theorem fsqrt_nonneg (q : ℚ) : 0 ≤ fsqrt q := by
  unfold fsqrt
  positivity

/-- Helper for C7: the length of the sample-point list. -/
theorem linspaceQ_length (a b : ℚ) (n : ℤ) : (linspaceQ a b n).length = (n + 1).toNat := by
  unfold linspaceQ
  rw [List.length_map, List.length_range]

/-- Helper for C7: the i-th sample point is the linear interpolation of
the two endpoints. -/
theorem linspaceQ_get (a b : ℚ) (n : ℤ) (i : ℕ) (h : i < (n + 1).toNat) :
    (linspaceQ a b n).get? i = some (a + (b - a) * (i : ℚ) / (n : ℚ)) := by
  unfold linspaceQ
  rw [List.get?_map, List.get?_range h]
  rfl

/-- C7: the number of sub-segments is floor(original planar distance /
maximal length) + 1 computed from the RAW (pre-scaling) coordinates
(first conjunct), it is at least 1 for a positive maximal length
(second conjunct), a move with no XY delta gives exactly 1 segment
(third conjunct), and the driver builds its n + 1 sample points by
linearly interpolating the already-scaled coordinates x / sqrt 2
(remaining conjuncts). -/
theorem C7_segmenter_thm (ml : ℚ) (inward : Bool) (c : ℚ) (st : MState) (row : String)
    (hml : 0 < ml) :
    ((mkMoveDataT ml inward c st row).n =
      Int.floor (norm2 (st.x_new - st.x_old) (st.y_new - st.y_old) / ml) + 1)
    ∧ 1 ≤ (mkMoveDataT ml inward c st row).n
    ∧ (st.x_new = st.x_old → st.y_new = st.y_old → (mkMoveDataT ml inward c st row).n = 1)
    ∧ (mkMoveDataT ml inward c st row).x_vals =
        linspaceQ (st.x_old / fsqrt 2) (st.x_new / fsqrt 2) (mkMoveDataT ml inward c st row).n
    ∧ (mkMoveDataT ml inward c st row).x_vals.length =
        (mkMoveDataT ml inward c st row).n.toNat + 1
    ∧ ∀ i : ℕ, i ≤ (mkMoveDataT ml inward c st row).n.toNat →
        (mkMoveDataT ml inward c st row).x_vals.get? i =
          some (st.x_old / fsqrt 2 +
            (st.x_new / fsqrt 2 - st.x_old / fsqrt 2) * (i : ℚ) /
              ((mkMoveDataT ml inward c st row).n : ℚ)) := by
  have hn : (mkMoveDataT ml inward c st row).n =
      num_segm (norm2 (st.x_new - st.x_old) (st.y_new - st.y_old)) ml := rfl
  have hnn : 1 ≤ (mkMoveDataT ml inward c st row).n := by
    rw [hn]
    unfold num_segm
    have h0 : (0 : ℤ) ≤ Int.floor (norm2 (st.x_new - st.x_old) (st.y_new - st.y_old) / ml) := by
      apply Int.floor_nonneg.mpr
      exact div_nonneg (fsqrt_nonneg _) (le_of_lt hml)
    omega
  refine ⟨hn, hnn, ?_, rfl, ?_, ?_⟩
  · intro hx hy
    rw [hn, hx, hy]
    unfold num_segm norm2
    rw [sub_self, sub_self]
    have h00 : fsqrt ((0 : ℚ) ^ 2 + (0 : ℚ) ^ 2) = 0 := by decide
    rw [h00, zero_div, Int.floor_zero]
    rfl
  · have hx : (mkMoveDataT ml inward c st row).x_vals =
        linspaceQ (st.x_old / fsqrt 2) (st.x_new / fsqrt 2)
          (mkMoveDataT ml inward c st row).n := rfl
    rw [hx, linspaceQ_length]
    omega
  · intro i hi
    have hx : (mkMoveDataT ml inward c st row).x_vals =
        linspaceQ (st.x_old / fsqrt 2) (st.x_new / fsqrt 2)
          (mkMoveDataT ml inward c st row).n := rfl
    rw [hx, linspaceQ_get _ _ _ i (by omega)]

/-- C7 witness: the segmenter theorem at the scenario move from the
origin to x = 10 with maximal length 5: the raw distance is 10 and the
driver produces floor(10 / 5) + 1 = 3 sub-segments (not 2 as the C1
scenario expects from the mapped distance). -/
theorem C7_segmenter_thm_witness :
    (0 : ℚ) < 5 ∧ (mkMoveDataT 5 false (-1) stMove10 "G1 X10 Y0 E1.0\n").n = 3 :=
  ⟨by norm_num,
    ((C7_segmenter_thm 5 false (-1) stMove10 "G1 X10 Y0 E1.0\n" (by norm_num)).1).trans
      (by decide)⟩


/-- Helper for C3: the running-minimum fold keeps a value of the list
(or the seed) and minimizes the distance to p. -/
theorem foldlMin_spec (p : ℚ) (cs : List ℚ) :
    ∀ b : ℚ,
      (cs.foldl (fun b c => if |c - p| < |b - p| then c else b) b = b ∨
        cs.foldl (fun b c => if |c - p| < |b - p| then c else b) b ∈ cs)
      ∧ |cs.foldl (fun b c => if |c - p| < |b - p| then c else b) b - p| ≤ |b - p|
      ∧ ∀ c ∈ cs, |cs.foldl (fun b c => if |c - p| < |b - p| then c else b) b - p| ≤ |c - p| := by
  induction cs with
  | nil => intro b; exact ⟨.inl rfl, le_refl _, by simp⟩
  | cons c cs ih =>
    intro b
    simp only [List.foldl_cons]
    obtain ⟨ihm, ihb, ihall⟩ := ih (if |c - p| < |b - p| then c else b)
    have hstep : |(if |c - p| < |b - p| then c else b) - p| ≤ |b - p| := by
      by_cases hc : |c - p| < |b - p|
      · rw [if_pos hc]; exact le_of_lt hc
      · rw [if_neg hc]
    have hstepc : |(if |c - p| < |b - p| then c else b) - p| ≤ |c - p| := by
      by_cases hc : |c - p| < |b - p|
      · rw [if_pos hc]
      · rw [if_neg hc]; exact le_of_not_lt hc
    refine ⟨?_, le_trans ihb hstep, ?_⟩
    · rcases ihm with he | hm
      · rw [he]
        by_cases hc : |c - p| < |b - p|
        · rw [if_pos hc]; exact .inr (List.mem_cons_self c cs)
        · rw [if_neg hc]; exact .inl rfl
      · exact .inr (List.mem_cons_of_mem c hm)
    · intro x hx
      rcases List.mem_cons.mp hx with rfl | hx2
      · exact le_trans ihb hstepc
      · exact ihall x hx2

/-- Helper for C3: the selected candidate is one of the 21 rounded
candidates and is (weakly) closest to the previous selected value, ties
resolved toward the smallest k as np.argmin does. -/
theorem bestCand_spec (p a : ℚ) :
    bestCand p a ∈ uCandidates a
    ∧ ∀ c ∈ uCandidates a, |bestCand p a - p| ≤ |c - p| := by
  unfold bestCand
  cases h : uCandidates a with
  | nil =>
    exfalso
    have : (uCandidates a).length = 21 := by
      unfold uCandidates
      rw [List.length_map, List.length_range]
    rw [h] at this
    simp at this
  | cons c cs =>
    obtain ⟨hm, hb, hall⟩ := foldlMin_spec p cs c
    dsimp only
    constructor
    · rcases hm with he | hmem
      · rw [he]; exact List.mem_cons_self c cs
      · exact List.mem_cons_of_mem c hmem
    · intro x hx
      rcases List.mem_cons.mp hx with rfl | hx2
      · exact hb
      · exact hall x hx2

/-- Helper for C3: the shape of the selection recursion. -/
theorem selectU_get (rest : List ℚ) :
    ∀ (prev : ℚ) (i : ℕ), i < rest.length →
      (selectU prev rest).get? i =
        some (bestCand ((prev :: selectU prev rest).getD i 0) (rest.getD i 0)) := by
  induction rest with
  | nil => intro prev i h; simp at h
  | cons a rest ih =>
    intro prev i h
    cases i with
    | zero => rfl
    | succ j =>
      have hj : j < rest.length := by simpa using h
      exact ih (bestCand prev a) j hj

/-- Helper for C3: the selection sequence has the length of its input. -/
theorem selectU_length (rest : List ℚ) :
    ∀ prev : ℚ, (selectU prev rest).length = rest.length := by
  induction rest with
  | nil => intro prev; rfl
  | cons a rest ih =>
    intro prev
    show (selectU prev (a :: rest)).length = rest.length + 1
    unfold selectU
    rw [List.length_cons, ih (bestCand prev a)]

/-- C3 amended: compute_U_values emits the degree conversion, rounded to
2 decimals, of a selection sequence (first conjunct) whose element 0 is
the carried-over continuous angle (third conjunct) and whose element
i + 1 is chosen by bestCand from the 21 candidates raw + 2 pi k,
k from -10 to 10, ROUNDED TO 4 DECIMALS, as the first candidate
(weakly) closest to the previously SELECTED value (fourth and fifth
conjuncts); the comparison happens after the rounding, which is what
the counterexample exploits. -/
theorem C3_unwrapper_amended (l : List ℚ) (hne : l ≠ []) :
    compute_U_values l = (selSeq l).map (fun a => roundPy 2 (a * 360 / (2 * np_pi)))
    ∧ (selSeq l).length = l.length
    ∧ (selSeq l).head? = l.head?
    ∧ (∀ i : ℕ, i + 1 < l.length →
        (selSeq l).get? (i + 1) =
          some (bestCand ((selSeq l).getD i 0) (l.getD (i + 1) 0)))
    ∧ (∀ p a : ℚ, bestCand p a ∈ uCandidates a ∧
        ∀ cc ∈ uCandidates a, |bestCand p a - p| ≤ |cc - p|) := by
  refine ⟨rfl, ?_, ?_, ?_, fun p a => bestCand_spec p a⟩
  · cases l with
    | nil => rfl
    | cons a rest =>
      show (a :: selectU a rest).length = (a :: rest).length
      rw [List.length_cons, List.length_cons, selectU_length rest a]
  · cases l with
    | nil => exact absurd rfl hne
    | cons a rest => rfl
  · intro i hi
    cases l with
    | nil => simp at hi
    | cons a rest =>
      have hj : i < rest.length := by simpa using hi
      exact selectU_get rest a i hj

/-- C3 witness: the amended theorem applied to the spec scenario, the
raw sequence 170 degrees then -170 degrees, which is emitted as
[170, 190] with no 340 degree jump. -/
theorem C3_unwrapper_amended_witness :
    ([170 * np_pi / 180, -170 * np_pi / 180] : List ℚ) ≠ []
    ∧ (selSeq [170 * np_pi / 180, -170 * np_pi / 180]).head? = some (170 * np_pi / 180)
    ∧ compute_U_values [170 * np_pi / 180, -170 * np_pi / 180] = [170, 190] :=
  ⟨by simp,
   ((C3_unwrapper_amended [170 * np_pi / 180, -170 * np_pi / 180] (by simp)).2.2.1).trans rfl,
   by decide⟩


/-- Helper for C8: the quadrant-corrected arctangent lies in the
half-open interval (-pi, pi]. -/
theorem RealAngle.arctan2_mem_Ioc (y x : ℝ) :
    RealAngle.arctan2 y x ∈ Set.Ioc (-Real.pi) Real.pi := by
  unfold RealAngle.arctan2
  have hpi := Real.pi_pos
  split_ifs with hx hx2 hy hy2 hy3
  · exact ⟨by linarith [Real.neg_pi_div_two_lt_arctan (y / x)],
      by linarith [Real.arctan_lt_pi_div_two (y / x)]⟩
  · have hyx : y / x ≤ 0 := div_nonpos_iff.mpr (Or.inl ⟨hy, le_of_lt hx2⟩)
    have h1 : Real.arctan (y / x) ≤ 0 := by
      have := Real.arctan_strictMono.monotone hyx
      rwa [Real.arctan_zero] at this
    exact ⟨by linarith [Real.neg_pi_div_two_lt_arctan (y / x)], by linarith⟩
  · have hy' : y < 0 := lt_of_not_le hy
    have hyx : 0 < y / x := div_pos_iff.mpr (Or.inr ⟨hy', hx2⟩)
    have h1 : 0 < Real.arctan (y / x) := by
      have := Real.arctan_strictMono hyx
      rwa [Real.arctan_zero] at this
    exact ⟨by linarith, by linarith [Real.arctan_lt_pi_div_two (y / x)]⟩
  · exact ⟨by linarith, by linarith⟩
  · exact ⟨by linarith, by linarith⟩
  · exact ⟨by linarith, by linarith⟩

/-- Helper for C8: shifting the interval (-pi, pi] by pi gives
(0, 2 pi]. -/
theorem RealAngle.shift_mem {a : ℝ} (h : a ∈ Set.Ioc (-Real.pi) Real.pi) :
    a + Real.pi ∈ Set.Ioc 0 (2 * Real.pi) :=
  ⟨by linarith [h.1], by linarith [h.2]⟩

/-- Helper for C8: the outward radial angle is the plain arctan2. -/
theorem RealAngle.radial_false (x y : ℝ) :
    RealAngle.compute_angle_radial x y false = RealAngle.arctan2 y x := rfl

/-- Helper for C8: the inward radial angle adds pi. -/
theorem RealAngle.radial_true (x y : ℝ) :
    RealAngle.compute_angle_radial x y true
      = RealAngle.compute_angle_radial x y false + Real.pi := rfl

/-- Helper for C8: the inward tangential angle adds pi. -/
theorem RealAngle.tangential_true (xo yo xn yn : ℝ) :
    RealAngle.compute_angle_tangential xo yo xn yn true
      = RealAngle.compute_angle_tangential xo yo xn yn false + Real.pi := rfl

/-- Helper for C8: the inward mixed angle adds pi. -/
theorem RealAngle.mixed_true (xo yo xn yn : ℝ) (vis : Bool) :
    RealAngle.compute_angle_mixed xo yo xn yn true vis
      = RealAngle.compute_angle_mixed xo yo xn yn false vis + Real.pi := rfl

/-- Helper for C8: every branch of the outward tangential angle is an
arctan2 value, hence lies in (-pi, pi]. -/
theorem RealAngle.tangential_false_mem (xo yo xn yn : ℝ) :
    RealAngle.compute_angle_tangential xo yo xn yn false ∈ Set.Ioc (-Real.pi) Real.pi := by
  unfold RealAngle.compute_angle_tangential
  dsimp only
  rw [if_neg (by simp)]
  split_ifs <;> exact RealAngle.arctan2_mem_Ioc _ _

/-- Helper for C8: every branch of the outward mixed angle is an arctan2
value, hence lies in (-pi, pi]. -/
theorem RealAngle.mixed_false_mem (xo yo xn yn : ℝ) (vis : Bool) :
    RealAngle.compute_angle_mixed xo yo xn yn false vis ∈ Set.Ioc (-Real.pi) Real.pi := by
  unfold RealAngle.compute_angle_mixed
  dsimp only
  rw [if_neg (by simp)]
  split_ifs <;> exact RealAngle.arctan2_mem_Ioc _ _

/-- C8 counterexample: the claim puts every returned angle in
(-pi, pi] even when pi is added for the inward cone; but the inward
radial angle of the point (0, 1) is arctan2(1, 0) + pi = 3 pi / 2,
which exceeds pi. -/
theorem C8_angle_range_cex : Real.pi < RealAngle.compute_angle_radial 0 1 true := by
  have h : RealAngle.compute_angle_radial 0 1 true = Real.pi / 2 + Real.pi := by
    rw [RealAngle.radial_true, RealAngle.radial_false]
    unfold RealAngle.arctan2
    norm_num
  rw [h]
  linarith [Real.pi_pos]

/-- C8 amended: each of the three angle-strategy functions returns a
value in (-pi, pi] for the outward cone; for the inward cone pi is
added, so the returned value lies in (0, 2 pi] instead. -/
theorem C8_angle_range_amended (xo yo xn yn : ℝ) (vis : Bool) :
    (RealAngle.compute_angle_radial xn yn false ∈ Set.Ioc (-Real.pi) Real.pi)
    ∧ (RealAngle.compute_angle_radial xn yn true ∈ Set.Ioc 0 (2 * Real.pi))
    ∧ (RealAngle.compute_angle_tangential xo yo xn yn false ∈ Set.Ioc (-Real.pi) Real.pi)
    ∧ (RealAngle.compute_angle_tangential xo yo xn yn true ∈ Set.Ioc 0 (2 * Real.pi))
    ∧ (RealAngle.compute_angle_mixed xo yo xn yn false vis ∈ Set.Ioc (-Real.pi) Real.pi)
    ∧ (RealAngle.compute_angle_mixed xo yo xn yn true vis ∈ Set.Ioc 0 (2 * Real.pi)) := by
  refine ⟨RealAngle.arctan2_mem_Ioc yn xn, ?_, RealAngle.tangential_false_mem xo yo xn yn, ?_,
    RealAngle.mixed_false_mem xo yo xn yn vis, ?_⟩
  · rw [RealAngle.radial_true]
    exact RealAngle.shift_mem (RealAngle.arctan2_mem_Ioc yn xn)
  · rw [RealAngle.tangential_true]
    exact RealAngle.shift_mem (RealAngle.tangential_false_mem xo yo xn yn)
  · rw [RealAngle.mixed_true]
    exact RealAngle.shift_mem (RealAngle.mixed_false_mem xo yo xn yn vis)

end ClaimTheorems
